import Mathlib

/-!
Shallow embedding of the patient-management service (`main.py`).

Conventions used throughout:

* Python floats are modelled as exact rationals (`ℚ`); Python's `round(x, 2)`
  is round-half-to-even on the exact value.
* A Python `dict` is an ordered association list (`Dict α`): lookup returns the
  first binding, assignment replaces an existing binding in place (keeping its
  position) and otherwise appends, matching CPython's insertion-order
  semantics.
* Each HTTP handler becomes a pure function from the persisted collection (the
  contents of `patients.json`) to the collection after the request together
  with the outcome.  An error outcome means `save_data` was never reached, so
  the persisted collection is returned unchanged.
* The error taxonomy mirrors the request outcomes: `HTTPException 404` becomes
  `Err.notFound`, the duplicate-id `HTTPException 400` becomes
  `Err.duplicateId`, the two sort `HTTPException 400`s become
  `Err.invalidSortKey` / `Err.invalidSortDirection`, and an uncaught pydantic
  `ValidationError` from `Patient(**info)` becomes `Err.validation`.
-/

namespace PatientApi

/-- Scalar JSON values as stored in the patients file. -/
inductive JVal where
  | s (v : String)
  | i (v : Int)
  | q (v : ℚ)
  deriving DecidableEq

/-- Numeric reading of a stored value, used as a sort key.  A string value
reads as `0`; well-formed records never store strings under numeric keys, and
the theorems about sorting carry that as a hypothesis (CPython would raise
`TypeError` on such data rather than compare). -/
def JVal.num : JVal → ℚ
  | .s _ => 0
  | .i n => (n : ℚ)
  | .q x => x

/-- Whether a stored value is numeric (an `int` or a `float`). -/
def JVal.isNum : JVal → Bool
  | .s _ => false
  | .i _ => true
  | .q _ => true

/-- Python `dict` with string keys: an ordered association list. -/
abbrev Dict (α : Type) := List (String × α)

/-- Lookup (`d[k]`, `d.get(k)`): the value at the first binding of `k`. -/
def dget {α : Type} (d : Dict α) (k : String) : Option α :=
  (d.find? (fun p => p.1 == k)).map (fun p => p.2)

/-- Membership test (`k in d`). -/
def dmem {α : Type} (d : Dict α) (k : String) : Bool :=
  d.any (fun p => p.1 == k)

/-- Assignment (`d[k] = v`): replace the binding of an existing key in place,
otherwise append a new binding, as CPython dicts do. -/
def dset {α : Type} (d : Dict α) (k : String) (v : α) : Dict α :=
  if dmem d k then d.map (fun p => if p.1 == k then (k, v) else p)
  else d ++ [(k, v)]

/-- Deletion (`del d[k]`). -/
def ddel {α : Type} (d : Dict α) (k : String) : Dict α :=
  d.filter (fun p => !(p.1 == k))

/-- Value view (`d.values()`), in insertion order. -/
def dvalues {α : Type} (d : Dict α) : List α :=
  d.map (fun p => p.2)

/-- Python's `round` to the nearest integer on an exact value: round half to
even (banker's rounding). -/
def rndHalfEven (x : ℚ) : ℤ :=
  if x - ⌊x⌋ < 1 / 2 then ⌊x⌋
  else if 1 / 2 < x - ⌊x⌋ then ⌊x⌋ + 1
  else if ⌊x⌋ % 2 = 0 then ⌊x⌋ else ⌊x⌋ + 1

/-- Python's `round(x, 2)`: round to two decimal places, half to even. -/
def round2 (x : ℚ) : ℚ :=
  (rndHalfEven (x * 100) : ℚ) / 100

/-- The `Patient` pydantic model: raw fields.  Field constraints
(`0 < age < 120`, gender literal, `height > 0`, `weight > 0`) are enforced at
construction by pydantic; they appear as `parsePatient` checks and as
hypotheses where theorems need them. -/
structure Patient where
  id : String
  name : String
  city : String
  age : Int
  gender : String
  height : ℚ
  weight : ℚ
  deriving DecidableEq

/-- Computed field `bmi`: `round(self.weight / (self.height ** 2), 2)`. -/
def Patient.bmi (p : Patient) : ℚ :=
  round2 (p.weight / p.height ^ 2)

/-- Computed field `verdict`: the BMI band of the patient. -/
def Patient.verdict (p : Patient) : String :=
  if p.bmi < 18.5 then "Underweight"
  else if p.bmi < 25 then "Normal"
  else if p.bmi < 30 then "Overweight"
  else "Obese"

/-- Allowed values of the `gender` literal. -/
def genders : List String := ["male", "female", "other"]

/-- Field constraints of the `Patient` model, as declared on its fields.
Note that no constraint is declared on `name` or `city` (any string,
including the empty string, is accepted). -/
def Patient.constraintsOk (p : Patient) : Bool :=
  decide (0 < p.age) && decide (p.age < 120) && decide (p.gender ∈ genders) &&
    decide (0 < p.height) && decide (0 < p.weight)

/-- Numeric reading pydantic performs for a `float` field (accepts `int` and
`float` payloads, rejects strings in this data set). -/
def qOfJVal : JVal → Option ℚ
  | .i n => some ((n : ℚ))
  | .q x => some x
  | .s _ => none

/-- Numeric reading pydantic performs for an `int` field (accepts `int` and
integral `float` payloads). -/
def intOfJVal : JVal → Option Int
  | .i n => some n
  | .q x => if x.den = 1 then some x.num else none
  | .s _ => none

/-- Reading pydantic performs for a `str` field. -/
def strOfJVal : JVal → Option String
  | .s v => some v
  | _ => none

/-- `Patient(**info)`: pydantic validation of a stored object.  Unknown keys
(such as a stored `bmi` or `verdict`) are ignored; every declared field must be
present with the right type and satisfy its declared constraint, else a
`ValidationError` is raised (`none` here). -/
def parsePatient (d : Dict JVal) : Option Patient :=
  match dget d "id" >>= strOfJVal, dget d "name" >>= strOfJVal,
      dget d "city" >>= strOfJVal, dget d "age" >>= intOfJVal,
      dget d "gender" >>= strOfJVal, dget d "height" >>= qOfJVal,
      dget d "weight" >>= qOfJVal with
  | some id, some name, some city, some age, some gender, some height,
      some weight =>
    if 0 < age ∧ age < 120 ∧ gender ∈ genders ∧ 0 < height ∧ 0 < weight then
      some ⟨id, name, city, age, gender, height, weight⟩
    else none
  | _, _, _, _, _, _, _ => none

/-- `patient.model_dump(exclude='id')` (and `exclude=['id']`): all raw fields
followed by the computed fields `bmi` and `verdict`, in declaration order,
with `id` excluded. -/
def dumpPatient (p : Patient) : Dict JVal :=
  [("name", .s p.name), ("city", .s p.city), ("age", .i p.age),
    ("gender", .s p.gender), ("height", .q p.height), ("weight", .q p.weight),
    ("bmi", .q p.bmi), ("verdict", .s p.verdict)]

/-- The `PatientUpdate` pydantic model: every field optional, `none` meaning
unset. -/
structure PatientUpdate where
  name : Option String := none
  city : Option String := none
  age : Option Int := none
  gender : Option String := none
  height : Option ℚ := none
  weight : Option ℚ := none
  deriving DecidableEq

/-- Field constraints declared on `PatientUpdate` and enforced by FastAPI
before the handler runs: `age > 0` (note: no upper bound, unlike `Patient`),
gender literal, `height > 0`, `weight > 0`. -/
def PatientUpdate.constraintsOk (u : PatientUpdate) : Bool :=
  u.age.all (fun a => decide (0 < a)) &&
    u.gender.all (fun g => decide (g ∈ genders)) &&
    u.height.all (fun h => decide (0 < h)) &&
    u.weight.all (fun w => decide (0 < w))

/-- `patient_update.model_dump(exclude_unset=True).items()`: the set fields
paired with their values, in field declaration order. -/
def patchItems (u : PatientUpdate) : List (String × JVal) :=
  (u.name.map (fun v => ("name", JVal.s v))).toList ++
    (u.city.map (fun v => ("city", JVal.s v))).toList ++
    (u.age.map (fun v => ("age", JVal.i v))).toList ++
    (u.gender.map (fun v => ("gender", JVal.s v))).toList ++
    (u.height.map (fun v => ("height", JVal.q v))).toList ++
    (u.weight.map (fun v => ("weight", JVal.q v))).toList

/-- The collection persisted in `patients.json`: id, then stored object. -/
abbrev Collection := Dict (Dict JVal)

/-- Request outcomes other than success. -/
inductive Err where
  | notFound
  | duplicateId
  | validation
  | invalidSortKey
  | invalidSortDirection
  deriving DecidableEq

/-- `GET /view`: return the loaded data unchanged. -/
def view (data : Collection) : Collection :=
  data

/-- `GET /patient/{patient_id}`: the stored object as-is, or 404. -/
def view_patient (data : Collection) (patient_id : String) :
    Except Err (Dict JVal) :=
  match dget data patient_id with
  | some r => .ok r
  | none => .error .notFound

/-- The valid sort keys of `GET /sort`. -/
def valid_fields : List String := ["height", "weight", "bmi"]

/-- The sort key: `x.get(sort_by, 0)` read as a number. -/
def sortVal (sort_by : String) (r : Dict JVal) : ℚ :=
  ((dget r sort_by).getD (.i 0)).num

/-- `GET /sort`: validate `sort_by` and `order`, then
`sorted(data.values(), key=lambda x: x.get(sort_by, 0), reverse=...)`.
CPython's `sorted` is a stable sort, also with `reverse=True`; it is modelled
as a stable merge sort under the corresponding comparison. -/
def sort_patients (data : Collection) (sort_by order : String) :
    Except Err (List (Dict JVal)) :=
  if sort_by ∉ valid_fields then .error .invalidSortKey
  else if order ∉ (["asc", "desc"] : List String) then
    .error .invalidSortDirection
  else if order = "desc" then
    .ok ((dvalues data).mergeSort
      (fun a b => decide (sortVal sort_by b ≤ sortVal sort_by a)))
  else
    .ok ((dvalues data).mergeSort
      (fun a b => decide (sortVal sort_by a ≤ sortVal sort_by b)))

/-- `POST /create`: reject a duplicate id with the 400 `HTTPException` before
anything is written; otherwise store `patient.model_dump(exclude=['id'])`
under `patient.id` and save. -/
def create_patient (data : Collection) (patient : Patient) :
    Collection × Except Err Unit :=
  if dmem data patient.id then (data, .error .duplicateId)
  else (dset data patient.id (dumpPatient patient), .ok ())

/-- `PUT /edit/{patient_id}`, faithful to the source: the body of the
`for key, value in ...items()` loop performs the merge of ONE field, then
validates, saves and returns, so only the first patch field is ever
processed.  With an empty patch the loop body never runs and the handler
falls through, saving nothing.  A pydantic `ValidationError` aborts the
request before `save_data`. -/
def update_patient (data : Collection) (patient_id : String)
    (patient_update : PatientUpdate) : Collection × Except Err Unit :=
  if !dmem data patient_id then (data, .error .notFound)
  else
    match patchItems patient_update with
    | [] => (data, .ok ())
    | (key, value) :: _ =>
      let existing := (dget data patient_id).getD []
      let merged := dset (dset existing key value) "id" (.s patient_id)
      match parsePatient merged with
      | none => (data, .error .validation)
      | some p => (dset data patient_id (dumpPatient p), .ok ())

/-- `DELETE /delete/{patient_id}`: 404 if absent, else remove and save. -/
def delete_patient (data : Collection) (patient_id : String) :
    Collection × Except Err Unit :=
  if !dmem data patient_id then (data, .error .notFound)
  else (ddel data patient_id, .ok ())

/-- The worked example record of the spec: Asha from Pune, 1.6 m, 55 kg. -/
def asha : Patient := ⟨"P001", "Asha", "Pune", 30, "female", 8 / 5, 55⟩

/-- The stored form of the worked example record. -/
def ashaStored : Dict JVal := dumpPatient asha

/-- A collection holding exactly the worked example record. -/
def data0 : Collection := [("P001", ashaStored)]

/-- A patch setting both height (to 1.5 m) and weight (to 70 kg). -/
def patchHW : PatientUpdate := { height := some (3 / 2), weight := some 70 }

/-- A patch setting city and an out-of-range age. -/
def patchCityAge : PatientUpdate := { city := some "Mumbai", age := some 150 }

/-- A patch setting only an out-of-range age. -/
def patchAge150 : PatientUpdate := { age := some 150 }

/-- The empty patch: no field set. -/
def emptyPatch : PatientUpdate := {}

/-- A patient whose bmi lands exactly on the 18.5 band boundary. -/
def pBand : Patient := ⟨"PB", "B", "C", 30, "female", 1, 37 / 2⟩

/-- A stored record whose persisted bmi (999) and verdict are stale relative
to its height 1.6 and weight 55. -/
def staleRec : Dict JVal :=
  [("name", .s "Asha"), ("city", .s "Pune"), ("age", .i 30),
    ("gender", .s "female"), ("height", .q (8 / 5)), ("weight", .q 55),
    ("bmi", .q 999), ("verdict", .s "Obese")]

/-- A stored record whose persisted bmi (1) is stale in the other direction:
height 1.6 and weight 90 re-derive to 35.16. -/
def staleRec2 : Dict JVal :=
  [("name", .s "Zoe"), ("city", .s "Pune"), ("age", .i 30),
    ("gender", .s "female"), ("height", .q (8 / 5)), ("weight", .q 90),
    ("bmi", .q 1), ("verdict", .s "Underweight")]

/-- A collection with the two stale records. -/
def staleData : Collection := [("P1", staleRec), ("P2", staleRec2)]

/-- The exact key list of every stored record produced by the service. -/
def storedKeys : List String :=
  ["name", "city", "age", "gender", "height", "weight", "bmi", "verdict"]

theorem rndHalfEven_eq_low (x : ℚ) (n : ℤ) (h1 : (n : ℚ) ≤ x)
    (h2 : x - n < 1 / 2) : rndHalfEven x = n := by
  have hf : ⌊x⌋ = n := Int.floor_eq_iff.mpr ⟨h1, by linarith⟩
  unfold rndHalfEven
  rw [hf, if_pos (by linarith)]

theorem rndHalfEven_eq_high (x : ℚ) (n : ℤ) (h1 : (n : ℚ) ≤ x)
    (h2 : 1 / 2 < x - n) (h3 : x < n + 1) : rndHalfEven x = n + 1 := by
  have hf : ⌊x⌋ = n := Int.floor_eq_iff.mpr ⟨h1, by linarith⟩
  unfold rndHalfEven
  rw [hf, if_neg (by linarith), if_pos (by linarith)]

theorem round2_eq_low (x : ℚ) (n : ℤ) (h1 : (n : ℚ) ≤ x * 100)
    (h2 : x * 100 - n < 1 / 2) : round2 x = (n : ℚ) / 100 := by
  unfold round2
  rw [rndHalfEven_eq_low (x * 100) n h1 h2]

theorem round2_eq_high (x : ℚ) (n : ℤ) (h1 : (n : ℚ) ≤ x * 100)
    (h2 : 1 / 2 < x * 100 - n) (h3 : x * 100 < n + 1) :
    round2 x = ((n : ℚ) + 1) / 100 := by
  unfold round2
  rw [rndHalfEven_eq_high (x * 100) n h1 h2 h3]
  push_cast
  ring

theorem rndHalfEven_dist_le (x : ℚ) : |x - rndHalfEven x| ≤ 1 / 2 := by
  have h1 := Int.floor_le x
  have h2 := Int.lt_floor_add_one x
  unfold rndHalfEven
  split_ifs with ha hb hc
  all_goals rw [abs_le]; constructor <;> push_cast at h2 ⊢ <;> linarith

theorem round2_dist_le (x : ℚ) : |x - round2 x| ≤ 1 / 200 := by
  have h := rndHalfEven_dist_le (x * 100)
  rw [abs_le] at h ⊢
  unfold round2
  constructor <;> nlinarith [h.1, h.2]

theorem dget_cons_self {α : Type} {hd : String × α} {tl : Dict α} {k : String}
    (h : hd.1 = k) : dget (hd :: tl) k = some hd.2 := by
  simp [dget, h]

theorem dget_cons_ne {α : Type} {hd : String × α} {tl : Dict α} {k : String}
    (h : ¬hd.1 = k) : dget (hd :: tl) k = dget tl k := by
  simp [dget, h]

theorem dget_eq_none_of_dmem_false {α : Type} {d : Dict α} {k : String}
    (h : dmem d k = false) : dget d k = none := by
  induction d with
  | nil => rfl
  | cons hd tl ih =>
    rw [dmem, List.any_cons, Bool.or_eq_false_iff] at h
    rw [dget_cons_ne (by simpa using h.1)]
    exact ih h.2

theorem dget_replace_self {α : Type} (d : Dict α) (k : String) (v : α)
    (h : dmem d k = true) :
    dget (d.map (fun p => if p.1 == k then (k, v) else p)) k = some v := by
  induction d with
  | nil => simp [dmem] at h
  | cons hd tl ih =>
    rw [List.map_cons]
    by_cases hk : hd.1 = k
    · rw [if_pos (by simpa using hk)]
      exact dget_cons_self rfl
    · rw [if_neg (by simpa using hk)]
      rw [dget_cons_ne hk]
      rw [dmem, List.any_cons, Bool.or_eq_true] at h
      rcases h with h | h
      · exact absurd (by simpa using h) hk
      · exact ih h

theorem dget_replace_ne {α : Type} (d : Dict α) (k k' : String) (v : α)
    (h : k' ≠ k) :
    dget (d.map (fun p => if p.1 == k then (k, v) else p)) k' = dget d k' := by
  induction d with
  | nil => rfl
  | cons hd tl ih =>
    rw [List.map_cons]
    by_cases hk : hd.1 = k
    · rw [if_pos (by simpa using hk)]
      rw [dget_cons_ne (by simpa using Ne.symm h)]
      rw [dget_cons_ne (by rw [hk]; exact fun hh => h (hh.symm)), ih]
    · rw [if_neg (by simpa using hk)]
      by_cases hk' : hd.1 = k'
      · rw [dget_cons_self hk', dget_cons_self hk']
      · rw [dget_cons_ne hk', dget_cons_ne hk', ih]

theorem dget_append_single_self {α : Type} (d : Dict α) (k : String) (v : α)
    (h : dmem d k = false) : dget (d ++ [(k, v)]) k = some v := by
  induction d with
  | nil => exact dget_cons_self rfl
  | cons hd tl ih =>
    rw [dmem, List.any_cons, Bool.or_eq_false_iff] at h
    rw [List.cons_append, dget_cons_ne (by simpa using h.1)]
    exact ih h.2

theorem dget_append_single_ne {α : Type} (d : Dict α) (k k' : String) (v : α)
    (h : k' ≠ k) : dget (d ++ [(k, v)]) k' = dget d k' := by
  induction d with
  | nil => exact dget_cons_ne (fun hh => h hh.symm)
  | cons hd tl ih =>
    rw [List.cons_append]
    by_cases hk' : hd.1 = k'
    · rw [dget_cons_self hk', dget_cons_self hk']
    · rw [dget_cons_ne hk', dget_cons_ne hk', ih]

theorem dget_dset_self {α : Type} (d : Dict α) (k : String) (v : α) :
    dget (dset d k v) k = some v := by
  unfold dset
  by_cases h : dmem d k
  · rw [if_pos h]
    exact dget_replace_self d k v h
  · rw [if_neg h]
    exact dget_append_single_self d k v (by simpa using h)

theorem dget_dset_ne {α : Type} (d : Dict α) (k k' : String) (v : α)
    (h : k' ≠ k) : dget (dset d k v) k' = dget d k' := by
  unfold dset
  by_cases hm : dmem d k
  · rw [if_pos hm]
    exact dget_replace_ne d k k' v h
  · rw [if_neg hm]
    exact dget_append_single_ne d k k' v h

theorem dget_ddel_self {α : Type} (d : Dict α) (k : String) :
    dget (ddel d k) k = none := by
  unfold dget ddel
  rw [List.find?_eq_none.mpr]
  · rfl
  · intro p hp
    have := (List.mem_filter.mp hp).2
    simpa using this

theorem dget_ddel_ne {α : Type} (d : Dict α) (k k' : String) (h : k' ≠ k) :
    dget (ddel d k) k' = dget d k' := by
  induction d with
  | nil => rfl
  | cons hd tl ih =>
    by_cases hk : hd.1 = k
    · have he : ddel (hd :: tl) k = ddel tl k := by simp [ddel, hk]
      rw [he, ih, dget_cons_ne (by rw [hk]; exact fun hh => h hh.symm)]
    · have he : ddel (hd :: tl) k = hd :: ddel tl k := by simp [ddel, hk]
      rw [he]
      by_cases hk' : hd.1 = k'
      · rw [dget_cons_self hk', dget_cons_self hk']
      · rw [dget_cons_ne hk', dget_cons_ne hk', ih]

theorem mergeSort_asc_spec {β : Type} (key : β → ℚ) (l : List β) :
    (l.mergeSort (fun a b => decide (key a ≤ key b))).Perm l ∧
    (l.mergeSort (fun a b => decide (key a ≤ key b))).Pairwise
      (fun a b => key a ≤ key b) ∧
    ∀ a b, [a, b].Sublist l → key a = key b →
      [a, b].Sublist (l.mergeSort (fun a b => decide (key a ≤ key b))) := by
  have htr : ∀ a b c : β, decide (key a ≤ key b) = true →
      decide (key b ≤ key c) = true → decide (key a ≤ key c) = true := by
    intro a b c hab hbc
    exact decide_eq_true (le_trans (of_decide_eq_true hab) (of_decide_eq_true hbc))
  have hto : ∀ a b : β,
      (decide (key a ≤ key b) || decide (key b ≤ key a)) = true := by
    intro a b
    rcases le_total (key a) (key b) with h | h <;> simp [h]
  refine ⟨List.mergeSort_perm l _, ?_, ?_⟩
  · exact (List.sorted_mergeSort htr hto l).imp (fun h => of_decide_eq_true h)
  · intro a b hs hk
    exact List.pair_sublist_mergeSort htr hto (decide_eq_true (le_of_eq hk)) hs

theorem mergeSort_descOrder_spec {β : Type} (key : β → ℚ) (l : List β) :
    (l.mergeSort (fun a b => decide (key b ≤ key a))).Perm l ∧
    (l.mergeSort (fun a b => decide (key b ≤ key a))).Pairwise
      (fun a b => key b ≤ key a) ∧
    ∀ a b, [a, b].Sublist l → key a = key b →
      [a, b].Sublist (l.mergeSort (fun a b => decide (key b ≤ key a))) := by
  have htr : ∀ a b c : β, decide (key b ≤ key a) = true →
      decide (key c ≤ key b) = true → decide (key c ≤ key a) = true := by
    intro a b c hab hbc
    exact decide_eq_true (le_trans (of_decide_eq_true hbc) (of_decide_eq_true hab))
  have hto : ∀ a b : β,
      (decide (key b ≤ key a) || decide (key a ≤ key b)) = true := by
    intro a b
    rcases le_total (key b) (key a) with h | h <;> simp [h]
  refine ⟨List.mergeSort_perm l _, ?_, ?_⟩
  · exact (List.sorted_mergeSort htr hto l).imp (fun h => of_decide_eq_true h)
  · intro a b hs hk
    exact List.pair_sublist_mergeSort htr hto (decide_eq_true (le_of_eq hk.symm)) hs

theorem round2_asha : round2 ((55 : ℚ) / (8 / 5) ^ 2) = 537 / 25 := by
  rw [round2_eq_low ((55 : ℚ) / (8 / 5) ^ 2) 2148 (by norm_num) (by norm_num)]
  norm_num

theorem round2_asha2 : round2 ((90 : ℚ) / (8 / 5) ^ 2) = 879 / 25 := by
  rw [round2_eq_high ((90 : ℚ) / (8 / 5) ^ 2) 3515 (by norm_num) (by norm_num)
    (by norm_num)]
  norm_num

theorem asha_bmi : asha.bmi = 537 / 25 := by
  simp only [Patient.bmi, asha]
  exact round2_asha

theorem asha_verdict : asha.verdict = "Normal" := by
  simp only [Patient.verdict, asha_bmi]
  norm_num

theorem pBand_bmi : pBand.bmi = 18.5 := by
  simp only [Patient.bmi, pBand]
  rw [round2_eq_low ((37 / 2 : ℚ) / 1 ^ 2) 1850 (by norm_num) (by norm_num)]
  norm_num

theorem round2_half32 : round2 ((55 : ℚ) / (3 / 2) ^ 2) = 611 / 25 := by
  rw [round2_eq_low ((55 : ℚ) / (3 / 2) ^ 2) 2444 (by norm_num) (by norm_num)]
  norm_num

theorem update_data0_patchHW :
    update_patient data0 "P001" patchHW =
      (dset data0 "P001"
        (dumpPatient ⟨"P001", "Asha", "Pune", 30, "female", 3 / 2, 55⟩),
        .ok ()) := by
  simp [update_patient, data0, patchHW, patchItems, dmem, dget, dset,
    dumpPatient, parsePatient, strOfJVal, intOfJVal, qOfJVal, genders,
    asha, ashaStored]

theorem update_data0_patchCityAge :
    update_patient data0 "P001" patchCityAge =
      (dset data0 "P001"
        (dumpPatient ⟨"P001", "Asha", "Mumbai", 30, "female", 8 / 5, 55⟩),
        .ok ()) := by
  simp [update_patient, data0, patchCityAge, patchItems, dmem, dget, dset,
    dumpPatient, parsePatient, strOfJVal, intOfJVal, qOfJVal, genders,
    asha, ashaStored]

theorem update_data0_patchAge150 :
    update_patient data0 "P001" patchAge150 = (data0, .error .validation) := by
  simp [update_patient, data0, patchAge150, patchItems, dmem, dget, dset,
    dumpPatient, parsePatient, strOfJVal, intOfJVal, qOfJVal, genders,
    asha, ashaStored]

theorem update_patient_cons (data : Collection) (pid : String)
    (u : PatientUpdate) (key : String) (value : JVal)
    (rest : List (String × JVal)) (hm : dmem data pid = true)
    (hitems : patchItems u = (key, value) :: rest) :
    update_patient data pid u =
      match parsePatient (dset (dset ((dget data pid).getD []) key value)
          "id" (.s pid)) with
      | none => (data, Except.error Err.validation)
      | some p => (dset data pid (dumpPatient p), Except.ok ()) := by
  unfold update_patient
  rw [if_neg (by simp [hm]), hitems]

/-- C1: the claim fails on the code as written: the update handler returns
from inside the field-iteration loop, so the patch setting height to 1.5 and
weight to 70 on the worked example is saved after applying only the height.
The stored record keeps weight 55 (its recomputed bmi is 24.44, not the 31.11
a full merge would give) and the request still reports success. -/
theorem update_patient_applies_only_first_field :
    (update_patient data0 "P001" patchHW).2 = .ok () ∧
    dget (update_patient data0 "P001" patchHW).1 "P001" =
      some (dumpPatient ⟨"P001", "Asha", "Pune", 30, "female", 3 / 2, 55⟩) ∧
    dget (dumpPatient ⟨"P001", "Asha", "Pune", 30, "female", 3 / 2, 55⟩)
      "weight" = some (.q 55) ∧
    (⟨"P001", "Asha", "Pune", 30, "female", 3 / 2, 55⟩ : Patient).bmi =
      611 / 25 := by
  refine ⟨?_, ?_, rfl, ?_⟩
  · rw [update_data0_patchHW]
  · rw [update_data0_patchHW]
    exact dget_dset_self data0 "P001"
      (dumpPatient ⟨"P001", "Asha", "Pune", 30, "female", 3 / 2, 55⟩)
  · simp only [Patient.bmi]
    exact round2_half32

/-- C2: for every patient record with positive height and weight, the derived
bmi is exactly `round(weight / height ** 2, 2)` under the one fixed
deterministic rule `round2` (round half to even): it is an integer number of
hundredths, differs from the true ratio by at most 1/200, and is recomputed
from height and weight alone (any record with the same height and weight has
the same bmi; bmi is never taken as an input). -/
theorem bmi_is_rounded_ratio (p : Patient) (_hh : 0 < p.height)
    (_hw : 0 < p.weight) :
    p.bmi = round2 (p.weight / p.height ^ 2) ∧
    (∃ n : ℤ, p.bmi = (n : ℚ) / 100) ∧
    |p.weight / p.height ^ 2 - p.bmi| ≤ 1 / 200 ∧
    ∀ p' : Patient, p'.height = p.height → p'.weight = p.weight →
      p'.bmi = p.bmi := by
  refine ⟨rfl, ⟨rndHalfEven (p.weight / p.height ^ 2 * 100), rfl⟩,
    round2_dist_le _, ?_⟩
  intro p' h1 h2
  simp only [Patient.bmi, h1, h2]

/-- Witness: C2 applied to the worked example record (1.6 m, 55 kg). -/
theorem bmi_is_rounded_ratio_witness :
    (0 : ℚ) < asha.height ∧ (0 : ℚ) < asha.weight ∧
    asha.bmi = round2 (asha.weight / asha.height ^ 2) :=
  ⟨by norm_num [asha], by norm_num [asha],
    (bmi_is_rounded_ratio asha (by norm_num [asha]) (by norm_num [asha])).1⟩

/-- C3: verdict is a deterministic function of bmi alone, with bands
inclusive on the lower bound: bmi < 18.5 gives Underweight, 18.5 ≤ bmi < 25
gives Normal, 25 ≤ bmi < 30 gives Overweight and 30 ≤ bmi gives Obese; in
particular bmi = 18.5 is Normal, bmi = 25 is Overweight and bmi = 30 is
Obese. -/
theorem verdict_bands (p : Patient) :
    (p.bmi < 18.5 → p.verdict = "Underweight") ∧
    (18.5 ≤ p.bmi → p.bmi < 25 → p.verdict = "Normal") ∧
    (25 ≤ p.bmi → p.bmi < 30 → p.verdict = "Overweight") ∧
    (30 ≤ p.bmi → p.verdict = "Obese") ∧
    (p.bmi = 18.5 → p.verdict = "Normal") ∧
    (p.bmi = 25 → p.verdict = "Overweight") ∧
    (p.bmi = 30 → p.verdict = "Obese") ∧
    ∀ p' : Patient, p'.bmi = p.bmi → p'.verdict = p.verdict := by
  unfold Patient.verdict
  refine ⟨fun h => ?_, fun h1 h2 => ?_, fun h1 h2 => ?_, fun h => ?_,
    fun h => ?_, fun h => ?_, fun h => ?_, fun p' h => by rw [h]⟩ <;>
    split_ifs <;> first | rfl | (exfalso; linarith)

/-- Witness: C3 at a record whose bmi is exactly 18.5: the verdict is
Normal. -/
theorem verdict_bands_witness : pBand.verdict = "Normal" :=
  (verdict_bands pBand).2.2.2.2.1 pBand_bmi

/-- C4: create fails with the duplicate-id error when the id is already a key
and leaves the stored collection unchanged; otherwise it succeeds and the
result is the input collection with the dumped record inserted under its id,
every other key unchanged. -/
theorem create_patient_spec (data : Collection) (p : Patient) :
    (dmem data p.id = true →
      create_patient data p = (data, .error .duplicateId)) ∧
    (dmem data p.id = false →
      create_patient data p = (dset data p.id (dumpPatient p), .ok ()) ∧
      dget (create_patient data p).1 p.id = some (dumpPatient p) ∧
      ∀ k, k ≠ p.id → dget (create_patient data p).1 k = dget data k) := by
  unfold create_patient
  constructor
  · intro h
    rw [if_pos h]
  · intro h
    rw [if_neg (by simp [h])]
    exact ⟨rfl, dget_dset_self data p.id (dumpPatient p),
      fun k hk => dget_dset_ne data p.id k (dumpPatient p) hk⟩

/-- Witness: C4 at the empty collection and the worked example record. -/
theorem create_patient_spec_witness :
    dmem ([] : Collection) asha.id = false ∧
    create_patient [] asha = (dset [] asha.id (dumpPatient asha), .ok ()) :=
  ⟨rfl, ((create_patient_spec [] asha).2 rfl).1⟩

/-- C5: sort rejects a key outside height, weight and bmi with the
invalid-key error and a direction outside asc and desc with the
invalid-direction error; a record missing the key sorts as the number 0
instead of erroring; and for a valid key and direction the result is a
permutation of the stored records in non-increasing (desc) or non-decreasing
(asc) order of the key, stable: records with equal keys keep their original
collection order. -/
theorem sort_patients_spec (data : Collection) (sort_by order : String) :
    (sort_by ∉ valid_fields →
      sort_patients data sort_by order = .error .invalidSortKey) ∧
    (sort_by ∈ valid_fields → order ∉ (["asc", "desc"] : List String) →
      sort_patients data sort_by order = .error .invalidSortDirection) ∧
    (∀ r : Dict JVal, dget r sort_by = none → sortVal sort_by r = 0) ∧
    (sort_by ∈ valid_fields →
      (∀ r ∈ dvalues data, ((dget r sort_by).getD (.i 0)).isNum = true) →
      (order = "desc" →
        ∃ out, sort_patients data sort_by order = .ok out ∧
          out.Perm (dvalues data) ∧
          out.Pairwise (fun a b => sortVal sort_by b ≤ sortVal sort_by a) ∧
          ∀ a b, [a, b].Sublist (dvalues data) →
            sortVal sort_by a = sortVal sort_by b → [a, b].Sublist out) ∧
      (order = "asc" →
        ∃ out, sort_patients data sort_by order = .ok out ∧
          out.Perm (dvalues data) ∧
          out.Pairwise (fun a b => sortVal sort_by a ≤ sortVal sort_by b) ∧
          ∀ a b, [a, b].Sublist (dvalues data) →
            sortVal sort_by a = sortVal sort_by b → [a, b].Sublist out)) := by
  refine ⟨?_, ?_, ?_, ?_⟩
  · intro h
    unfold sort_patients
    rw [if_pos h]
  · intro h1 h2
    unfold sort_patients
    rw [if_neg (by simpa using h1), if_pos h2]
  · intro r h
    unfold sortVal
    rw [h]
    rfl
  · intro hkey _hnum
    constructor
    · intro hdesc
      unfold sort_patients
      rw [if_neg (by simpa using hkey), if_neg (by simp [hdesc]),
        if_pos hdesc]
      exact ⟨_, rfl,
        (mergeSort_descOrder_spec (sortVal sort_by) (dvalues data)).1,
        (mergeSort_descOrder_spec (sortVal sort_by) (dvalues data)).2.1,
        (mergeSort_descOrder_spec (sortVal sort_by) (dvalues data)).2.2⟩
    · intro hasc
      unfold sort_patients
      rw [if_neg (by simpa using hkey), if_neg (by simp [hasc]),
        if_neg (by simp [hasc])]
      exact ⟨_, rfl,
        (mergeSort_asc_spec (sortVal sort_by) (dvalues data)).1,
        (mergeSort_asc_spec (sortVal sort_by) (dvalues data)).2.1,
        (mergeSort_asc_spec (sortVal sort_by) (dvalues data)).2.2⟩

/-- Witness: C5 on the two-record collection, key bmi, direction desc. -/
theorem sort_patients_spec_witness :
    "bmi" ∈ valid_fields ∧
    ∃ out, sort_patients staleData "bmi" "desc" = .ok out ∧
      out.Perm (dvalues staleData) ∧
      out.Pairwise (fun a b => sortVal "bmi" b ≤ sortVal "bmi" a) ∧
      ∀ a b, [a, b].Sublist (dvalues staleData) →
        sortVal "bmi" a = sortVal "bmi" b → [a, b].Sublist out :=
  ⟨by decide,
    ((sort_patients_spec staleData "bmi" "desc").2.2.2 (by decide)
      (by decide)).1 rfl⟩

/-- C6: delete and lookup of an absent id both fail with the not-found error
and leave the collection unchanged; delete of a present id succeeds, removes
exactly that entry and leaves every other entry unchanged. -/
theorem delete_lookup_spec (data : Collection) (pid : String) :
    (dmem data pid = false →
      delete_patient data pid = (data, .error .notFound) ∧
      view_patient data pid = .error .notFound) ∧
    (dmem data pid = true →
      delete_patient data pid = (ddel data pid, .ok ()) ∧
      dget (ddel data pid) pid = none ∧
      ∀ k, k ≠ pid → dget (ddel data pid) k = dget data k) := by
  constructor
  · intro h
    constructor
    · unfold delete_patient
      rw [if_pos (by simp [h])]
    · unfold view_patient
      rw [dget_eq_none_of_dmem_false h]
  · intro h
    refine ⟨?_, dget_ddel_self data pid,
      fun k hk => dget_ddel_ne data pid k hk⟩
    unfold delete_patient
    rw [if_neg (by simp [h])]

/-- Witness: C6 for an id absent from the example collection. -/
theorem delete_lookup_spec_witness :
    dmem data0 "P002" = false ∧
    delete_patient data0 "P002" = (data0, .error .notFound) ∧
    view_patient data0 "P002" = .error .notFound :=
  ⟨rfl, ((delete_lookup_spec data0 "P002").1 rfl).1,
    ((delete_lookup_spec data0 "P002").1 rfl).2⟩

/-- C7: an update with the empty patch (no field set) reports success and
leaves the stored collection, hence the stored record with its bmi and
verdict, unchanged (the field loop never runs and nothing is saved). -/
theorem update_patient_empty_patch (data : Collection) (pid : String)
    (h : dmem data pid = true) :
    update_patient data pid emptyPatch = (data, .ok ()) := by
  unfold update_patient
  rw [if_neg (by simp [h])]
  rfl

/-- Witness: C7 on the example collection. -/
theorem update_patient_empty_patch_witness :
    dmem data0 "P001" = true ∧
    update_patient data0 "P001" emptyPatch = (data0, .ok ()) :=
  ⟨rfl, update_patient_empty_patch data0 "P001" rfl⟩

/-- C8: the claim fails on the code as written: the patch setting city to
Mumbai and age to 150 passes the update model's own field validation (which
declares no upper age bound), and the handler saves the city change and
reports success without ever checking the age patch, because it returns after
the first field.  The same age, when it is the only (hence first) patch
field, is rejected with a validation error that leaves the collection
unchanged. -/
theorem update_patient_skips_validation_of_later_fields :
    PatientUpdate.constraintsOk patchCityAge = true ∧
    ¬((150 : ℤ) < 120) ∧
    (update_patient data0 "P001" patchCityAge).2 = .ok () ∧
    dget (update_patient data0 "P001" patchCityAge).1 "P001" =
      some (dumpPatient ⟨"P001", "Asha", "Mumbai", 30, "female", 8 / 5, 55⟩) ∧
    update_patient data0 "P001" patchAge150 = (data0, .error .validation) := by
  refine ⟨by decide, by decide, ?_, ?_, update_data0_patchAge150⟩
  · rw [update_data0_patchCityAge]
  · rw [update_data0_patchCityAge]
    exact dget_dset_self data0 "P001"
      (dumpPatient ⟨"P001", "Asha", "Mumbai", 30, "female", 8 / 5, 55⟩)

/-- C9 counterexample: with a stored bmi of 999 on a record whose height 1.6
and weight 55 re-derive to 21.48, lookup returns the stale 999 as-is, and
sorting by bmi descending puts the stale record first even though its
re-derived bmi (21.48) is smaller than the other record's re-derived 35.16:
reads use stored values and do not re-derive. -/
theorem reads_report_stored_bmi :
    view_patient staleData "P1" = .ok staleRec ∧
    dget staleRec "bmi" = some (.q 999) ∧
    round2 ((55 : ℚ) / (8 / 5) ^ 2) = 537 / 25 ∧
    (999 : ℚ) ≠ 537 / 25 ∧
    sort_patients staleData "bmi" "desc" = .ok [staleRec, staleRec2] ∧
    round2 ((90 : ℚ) / (8 / 5) ^ 2) = 879 / 25 ∧
    round2 ((55 : ℚ) / (8 / 5) ^ 2) < round2 ((90 : ℚ) / (8 / 5) ^ 2) := by
  refine ⟨rfl, rfl, round2_asha, by norm_num, ?_, round2_asha2, ?_⟩
  · unfold sort_patients
    rw [if_neg (by decide), if_neg (by decide), if_pos rfl]
    have e1 : dget staleRec "bmi" = some (JVal.q 999) := rfl
    have e2 : dget staleRec2 "bmi" = some (JVal.q 1) := rfl
    have h1 : sortVal "bmi" staleRec2 ≤ sortVal "bmi" staleRec := by
      unfold sortVal
      rw [e1, e2]
      show (1 : ℚ) ≤ 999
      norm_num
    have hpair : List.Pairwise
        (fun a b => decide (sortVal "bmi" b ≤ sortVal "bmi" a) = true)
        (dvalues staleData) := by
      simp [dvalues, staleData, List.pairwise_cons, h1]
    rw [List.mergeSort_of_sorted hpair]
    rfl
  · rw [round2_asha, round2_asha2]
    norm_num

/-- C9 amended: bmi and verdict are persisted redundantly, and operations
that read the collection report and order by the stored values as-is, never
re-deriving them; consistency is instead maintained at write time: a
successful create stores a record whose bmi and verdict are freshly derived
from its height and weight (a successful update does the same, per the stored
shape theorem). -/
theorem reads_trust_storage (data : Collection) (pid : String)
    (r : Dict JVal) (p : Patient) :
    (dget data pid = some r → view_patient data pid = .ok r) ∧
    view data = data ∧
    (∀ rec : Dict JVal,
      sortVal "bmi" rec = ((dget rec "bmi").getD (.i 0)).num) ∧
    (dmem data p.id = false →
      dget (create_patient data p).1 p.id = some (dumpPatient p) ∧
      dget (dumpPatient p) "bmi" =
        some (.q (round2 (p.weight / p.height ^ 2))) ∧
      dget (dumpPatient p) "verdict" = some (.s p.verdict)) := by
  refine ⟨?_, rfl, fun rec => rfl, ?_⟩
  · intro h
    unfold view_patient
    rw [h]
  · intro h
    unfold create_patient
    rw [if_neg (by simp [h])]
    exact ⟨dget_dset_self _ _ _, rfl, rfl⟩

/-- Witness: C9 amended, at the stale collection. -/
theorem reads_trust_storage_witness :
    dget staleData "P1" = some staleRec ∧
    view_patient staleData "P1" = .ok staleRec :=
  ⟨rfl, (reads_trust_storage staleData "P1" staleRec asha).1 rfl⟩

/-- C10: every record stored by a successful create or update is the model
dump of a validated patient: exactly the raw fields followed by materialised
bmi and verdict, with no id key (the id lives only as the collection key);
delete introduces no other shape, since every entry of its result was an
entry of its input. -/
theorem stored_record_shape (data : Collection) (p : Patient) (pid : String)
    (u : PatientUpdate) :
    ((dumpPatient p).map Prod.fst = storedKeys ∧
      dget (dumpPatient p) "id" = none ∧
      dget (dumpPatient p) "bmi" = some (.q p.bmi) ∧
      dget (dumpPatient p) "verdict" = some (.s p.verdict)) ∧
    (dmem data p.id = false →
      dget (create_patient data p).1 p.id = some (dumpPatient p)) ∧
    ((update_patient data pid u).2 = .ok () → patchItems u ≠ [] →
      ∃ q : Patient, dget (update_patient data pid u).1 pid =
        some (dumpPatient q)) ∧
    (∀ k r, dget (delete_patient data pid).1 k = some r →
      dget data k = some r) := by
  refine ⟨⟨rfl, rfl, rfl, rfl⟩, ?_, ?_, ?_⟩
  · intro h
    unfold create_patient
    rw [if_neg (by simp [h])]
    exact dget_dset_self _ _ _
  · intro hok hne
    rcases hitems : patchItems u with _ | ⟨⟨key, value⟩, rest⟩
    · exact absurd hitems hne
    · by_cases hm : dmem data pid = true
      · rw [update_patient_cons data pid u key value rest hm hitems]
          at hok ⊢
        cases hp : parsePatient (dset (dset ((dget data pid).getD [])
            key value) "id" (.s pid)) with
        | none =>
          rw [hp] at hok
          simp at hok
        | some q =>
          exact ⟨q, dget_dset_self data pid (dumpPatient q)⟩
      · have hno : update_patient data pid u = (data, .error .notFound) := by
          unfold update_patient
          rw [if_pos (by simp [hm])]
        rw [hno] at hok
        simp at hok
  · intro k r h
    unfold delete_patient at h
    by_cases hm : dmem data pid = true
    · rw [if_neg (by simp [hm])] at h
      by_cases hk : k = pid
      · rw [hk, dget_ddel_self] at h
        cases h
      · rwa [dget_ddel_ne data pid k hk] at h
    · rw [if_pos (by simp [hm])] at h
      exact h

/-- Witness: C10 at the example collection under the two-field patch. -/
theorem stored_record_shape_witness :
    (update_patient data0 "P001" patchHW).2 = .ok () ∧
    patchItems patchHW ≠ [] ∧
    ∃ q : Patient, dget (update_patient data0 "P001" patchHW).1 "P001" =
      some (dumpPatient q) := by
  have h2 : (update_patient data0 "P001" patchHW).2 = .ok () := by
    rw [update_data0_patchHW]
  exact ⟨h2, by simp [patchItems, patchHW],
    (stored_record_shape data0 asha "P001" patchHW).2.2.1 h2
      (by simp [patchItems, patchHW])⟩

end PatientApi
